import Mathlib

/-!
Verification of the CAN bus traffic generator / replayer (`src/main.py`)
against its natural-language specification.

Shallow embedding conventions:
* Python `float` values are modelled as exact rationals (`ℚ`).  Every
  numeric literal appearing in the claims (`0.5`, `2.0`, `-0.5`, `10`, ...)
  is a dyadic (or small decimal) value that binary64 represents exactly, so
  the rational model agrees with the Python semantics on all inputs used to
  settle the claims.  Non-finite literals (`inf`, `nan`) and underscore
  separators are outside the model.
* Python `int` is modelled as `Int` (arbitrary precision, like Python).
* A Python function that can raise an uncaught exception is modelled as
  returning `Option`/`none` on the raising paths.
* `bytes` / `bytearray` contents are modelled as `List Nat` whose elements
  are `< 256` (established where needed by hypotheses or by construction).
-/

set_option maxRecDepth 4000

/-- Numeric code point of a character (Python `ord`). -/
def chVal (c : Char) : Nat := c.toNat

/-- ASCII decimal digit test, as used by Python numeric literal parsing. -/
def isDigitB (c : Char) : Bool := 48 ≤ chVal c && chVal c ≤ 57

/-- ASCII hexadecimal digit test (`0-9`, `a-f`, `A-F`). -/
def isHexDigitB (c : Char) : Bool :=
  (48 ≤ chVal c && chVal c ≤ 57) || (97 ≤ chVal c && chVal c ≤ 102) ||
    (65 ≤ chVal c && chVal c ≤ 70)

/-- Value of a hexadecimal digit character. -/
def hexDigitVal (c : Char) : Nat :=
  if 48 ≤ chVal c ∧ chVal c ≤ 57 then chVal c - 48
  else if 97 ≤ chVal c ∧ chVal c ≤ 102 then chVal c - 87
  else chVal c - 55

/-- ASCII whitespace, as stripped by Python `str.strip` / numeric parsing. -/
def isSpaceB (c : Char) : Bool :=
  chVal c = 32 || chVal c = 9 || chVal c = 10 || chVal c = 13 ||
    chVal c = 11 || chVal c = 12

/-- Python `str.strip()` on a character list: drop leading and trailing
whitespace. -/
def stripList (cs : List Char) : List Char :=
  ((cs.dropWhile isSpaceB).reverse.dropWhile isSpaceB).reverse

/-- Fold a digit string into a number: `valFold b dv [c1, ..., ck]`
is `dv c1 * b^(k-1) + ... + dv ck` (most significant digit first). -/
def valFold (base : Nat) (dv : Char → Nat) (cs : List Char) : Nat :=
  cs.foldl (fun a c => base * a + dv c) 0

/-- Parse a nonempty all-hex-digit character list (the digit part of
Python `int(s, 16)`). -/
def parseHexDigits? (cs : List Char) : Option Nat :=
  if cs ≠ [] ∧ cs.all isHexDigitB then some (valFold 16 hexDigitVal cs)
  else none

/-- Digit part of `int(s, 16)` with an optional `0x`/`0X` marker. -/
def parseHexBody? (cs : List Char) : Option Nat :=
  if cs.take 2 = ['0', 'x'] ∨ cs.take 2 = ['0', 'X'] then
    parseHexDigits? (cs.drop 2)
  else parseHexDigits? cs

/-- Python `int(s, 16)` on a character list: strip whitespace, optional
sign, optional `0x` marker, hex digits; `none` models the `ValueError`
raised on any other input. -/
def pyIntHexL? (cs : List Char) : Option Int :=
  if (stripList cs).take 1 = ['-'] then
    (parseHexBody? ((stripList cs).drop 1)).map (fun n => -(n : Int))
  else if (stripList cs).take 1 = ['+'] then
    (parseHexBody? ((stripList cs).drop 1)).map (fun n => (n : Int))
  else (parseHexBody? (stripList cs)).map (fun n => (n : Int))

/-- Python `int(s, 16)`. -/
def pyIntHex? (s : String) : Option Int := pyIntHexL? s.toList

/-- Parse a nonempty all-decimal-digit character list. -/
def parseDecDigits? (cs : List Char) : Option Nat :=
  if cs ≠ [] ∧ cs.all isDigitB then some (valFold 10 (fun c => chVal c - 48) cs)
  else none

/-- Python `int(s)` on a character list: strip, optional sign, decimal
digits; `none` models the `ValueError` on any other input. -/
def pyIntL? (cs : List Char) : Option Int :=
  if (stripList cs).take 1 = ['-'] then
    (parseDecDigits? ((stripList cs).drop 1)).map (fun n => -(n : Int))
  else if (stripList cs).take 1 = ['+'] then
    (parseDecDigits? ((stripList cs).drop 1)).map (fun n => (n : Int))
  else (parseDecDigits? (stripList cs)).map (fun n => (n : Int))

/-- Python `int(s)`. -/
def pyInt? (s : String) : Option Int := pyIntL? s.toList

/-- Mantissa of a float literal: `d+`, `d+.d*` or `.d+` (value as an exact
rational). -/
def parseMantissa? (cs : List Char) : Option ℚ :=
  match cs.splitOn '.' with
  | [a] =>
    if a ≠ [] ∧ a.all isDigitB then some ((valFold 10 (fun c => chVal c - 48) a : Nat) : ℚ)
    else none
  | [a, b] =>
    if (a ≠ [] ∨ b ≠ []) ∧ a.all isDigitB ∧ b.all isDigitB then
      some (((valFold 10 (fun c => chVal c - 48) a : Nat) : ℚ) +
        ((valFold 10 (fun c => chVal c - 48) b : Nat) : ℚ) / (10 ^ b.length : Nat))
    else none
  | _ => none

/-- Signed decimal exponent of a float literal. -/
def parseExp? (cs : List Char) : Option Int :=
  if cs.take 1 = ['-'] then (parseDecDigits? (cs.drop 1)).map (fun n => -(n : Int))
  else if cs.take 1 = ['+'] then (parseDecDigits? (cs.drop 1)).map (fun n => (n : Int))
  else (parseDecDigits? cs).map (fun n => (n : Int))

/-- Scale a rational by a signed power of ten. -/
def scalePow10 (q : ℚ) (e : Int) : ℚ :=
  if 0 ≤ e then q * ((10 ^ e.toNat : Nat) : ℚ) else q / ((10 ^ (-e).toNat : Nat) : ℚ)

/-- Unsigned part of a Python float literal: mantissa with an optional
`e`/`E` exponent. -/
def pyFloatCore? (cs : List Char) : Option ℚ :=
  match (cs.map Char.toLower).splitOn 'e' with
  | [m] => parseMantissa? m
  | [m, ex] =>
    match parseMantissa? m, parseExp? ex with
    | some mv, some ev => some (scalePow10 mv ev)
    | _, _ => none
  | _ => none

/-- Python `float(s)` on a character list, restricted to finite decimal
literals (no `inf`/`nan`, no underscores); the value is the exact rational
denoted by the literal.  `none` models the `ValueError` on non-literals. -/
def pyFloatL? (cs : List Char) : Option ℚ :=
  if (stripList cs).take 1 = ['-'] then (pyFloatCore? ((stripList cs).drop 1)).map (fun q => -q)
  else if (stripList cs).take 1 = ['+'] then pyFloatCore? ((stripList cs).drop 1)
  else pyFloatCore? (stripList cs)

/-- Python `float(s)`. -/
def pyFloat? (s : String) : Option ℚ := pyFloatL? s.toList

/-- Python `bytes.fromhex` on a character list: pairs of hex digits, even length;
`none` models the `ValueError` otherwise (whitespace between pairs is
outside the model). -/
def fromhexL? : List Char → Option (List Nat)
  | [] => some []
  | [_] => none
  | c1 :: c2 :: rest =>
    if isHexDigitB c1 && isHexDigitB c2 then
      (fromhexL? rest).map (fun l => (16 * hexDigitVal c1 + hexDigitVal c2) :: l)
    else none

/-- Python's `str.split(sep)` for a single-character separator. -/
def splitListOn (sep : Char) : List Char → List (List Char)
  | [] => [[]]
  | c :: rest =>
    let r := splitListOn sep rest
    if c = sep then [] :: r
    else
      match r with
      | [] => [[c]]
      | h :: t => (c :: h) :: t

example : splitListOn ':' "id:0x110:byte:2:scale:0.5".toList =
    ["id".toList, "0x110".toList, "byte".toList, "2".toList, "scale".toList, "0.5".toList] := by
  decide

example : pyIntHex? "0x110" = some 272 := by decide
example : pyIntHex? "110" = some 272 := by decide
example : pyIntHex? "zz" = none := by decide
example : pyFloat? "0.5" = some (1/2) := by with_unfolding_all decide
example : pyFloat? "-0.5" = some (-(1/2)) := by with_unfolding_all decide
example : pyFloat? "2.0" = some 2 := by with_unfolding_all decide
example : pyFloat? "1e3" = some 1000 := by with_unfolding_all decide
example : pyFloat? "" = none := by decide
example : pyInt? "-7" = some (-7) := by decide
example : fromhexL? "0102".toList = some [1, 2] := by decide

/-! ### Formatting (the write side of the log format) -/

/-- Digit sequence of `n` in the given base, least significant first,
computed with explicit fuel so that it is structurally recursive
(`fuel ≥ n` makes it total on the digits of `n`). -/
def digitsRev (base : Nat) : Nat → Nat → List Nat
  | _, 0 => []
  | 0, _ + 1 => []
  | f + 1, m + 1 => ((m + 1) % base) :: digitsRev base f ((m + 1) / base)

/-- Uppercase hexadecimal digit character (as in Python `format(n, 'X')`). -/
def hexUpperDigit (d : Nat) : Char :=
  if d < 10 then Char.ofNat (48 + d) else Char.ofNat (55 + d)

/-- Lowercase hexadecimal digit character (as in `bytes.hex()`). -/
def hexLowerDigit (d : Nat) : Char :=
  if d < 10 then Char.ofNat (48 + d) else Char.ofNat (87 + d)

/-- Decimal digit character. -/
def decDigitCh (d : Nat) : Char := Char.ofNat (48 + d)

/-- Character list of `n` rendered in a base with a digit map, most
significant digit first; `0` renders as `"0"`. -/
def natToBaseChars (base : Nat) (dig : Nat → Char) (n : Nat) : List Char :=
  if n = 0 then [dig 0] else ((digitsRev base n n).map dig).reverse

/-- Python `f"{n:X}"` for an arbitrary-precision integer: uppercase hex,
no prefix, a leading minus sign for negative values. -/
def hexUpperOfInt (n : Int) : String :=
  match n with
  | Int.ofNat m => ⟨natToBaseChars 16 hexUpperDigit m⟩
  | Int.negSucc m => ⟨'-' :: natToBaseChars 16 hexUpperDigit (m + 1)⟩

/-- Python `str(n)` for an integer. -/
def decOfInt (n : Int) : String :=
  match n with
  | Int.ofNat m => ⟨natToBaseChars 10 decDigitCh m⟩
  | Int.negSucc m => ⟨'-' :: natToBaseChars 10 decDigitCh (m + 1)⟩

/-- Two lowercase hex characters of one byte (`b < 256`). -/
def byteHexChars (b : Nat) : List Char := [hexLowerDigit (b / 16), hexLowerDigit (b % 16)]

/-- Python `bytes.hex()`: lowercase hex, two characters per byte. -/
def bytesHex (data : List Nat) : String := ⟨(data.map byteHexChars).flatten⟩

example : hexUpperOfInt 272 = "110" := by decide
example : hexUpperOfInt 0 = "0" := by decide
example : hexUpperOfInt (-255) = "-FF" := by decide
example : decOfInt 8 = "8" := by decide
example : bytesHex [1, 2, 255] = "0102ff" := by decide

/-! ### Data model

`Message` embeds the `can.Message` objects the script builds (only the
fields the script touches); `Row` is one parsed CSV record, the tuple
returned by `parse_csv_row`. -/

/-- A CAN message as manipulated by the script (`can.Message`): the
`timestamp` defaults to `0` when the constructor is not given one. -/
structure Message where
  arbitration_id : Int
  is_extended_id : Bool
  dlc : Int
  data : List Nat
  timestamp : ℚ
deriving DecidableEq, Repr

/-- One parsed trace row: the tuple `(ts, ident, is_ext, dlc, data)`
returned by `parse_csv_row`. -/
structure Row where
  ts : ℚ
  ident : Int
  is_ext : Bool
  dlc : Int
  data : List Nat
deriving DecidableEq, Repr

/-! ### TraceStore: `parse_csv_row` and `read_replay_csv` -/

/-- Embeds `parse_csv_row(row)` from `src/main.py`: `float(row[0])`,
`int(row[1], 16)`, `bool(int(row[2]))`, `int(row[3])`,
`bytes.fromhex(row[4].strip())`.  `none` models the uncaught exception
(`IndexError` on a short row, `ValueError` on a malformed field). -/
def parse_csv_row (row : List String) : Option Row := do
  let f0 ← row[0]?
  let ts ← pyFloat? f0
  let f1 ← row[1]?
  let ident ← pyIntHex? f1
  let f2 ← row[2]?
  let n2 ← pyInt? f2
  let f3 ← row[3]?
  let dlc ← pyInt? f3
  let f4 ← row[4]?
  let data ← fromhexL? (stripList f4.toList)
  some ⟨ts, ident, decide (n2 ≠ 0), dlc, data⟩

/-- The skip test of `read_replay_csv`: `if not r or r[0].startswith('#')`. -/
def skipRow (r : List String) : Bool :=
  match r with
  | [] => true
  | f :: _ =>
    match f.toList with
    | '#' :: _ => true
    | _ => false

/-- Embeds `read_replay_csv` from `src/main.py`, over the list of CSV records the
reader yields: skipped rows are dropped, every other row goes through
`parse_csv_row`, and a parse failure aborts the whole read (`none`). -/
def read_replay_csv : List (List String) → Option (List Row)
  | [] => some []
  | r :: rest =>
    if skipRow r then read_replay_csv rest
    else do
      let row ← parse_csv_row r
      let rows ← read_replay_csv rest
      some (row :: rows)

example : parse_csv_row ["1.0", "110", "0", "8", "0102"] =
    some ⟨1, 272, false, 8, [1, 2]⟩ := by with_unfolding_all decide
example : parse_csv_row ["bad"] = none := by decide
example : read_replay_csv [["#c"], [], ["1.0", "110", "0", "2", "0102"]] =
    some [⟨1, 272, false, 2, [1, 2]⟩] := by with_unfolding_all decide

/-! ### MutationRule: `apply_modify_rule` -/

/-- Python truncation toward zero (`int(q)` on a float value): the
quotient of numerator by denominator under T-division
(`Int.div` truncates toward zero, matching CPython's `float.__trunc__`). -/
def pyTrunc (q : ℚ) : Int := Int.tdiv q.num (q.den : Int)

/-- Python sequence index resolution: a negative index counts from the
end; `none` models the `IndexError` outside `[-len, len)`. -/
def pyIndex (len : Nat) (i : Int) : Option Nat :=
  if 0 ≤ i then (if i < (len : Int) then some i.toNat else none)
  else if -(len : Int) ≤ i then some ((len : Int) + i).toNat else none

/-- Python `b[i]` on a byte sequence. -/
def pyGetByte (b : List Nat) (i : Int) : Option Nat :=
  (pyIndex b.length i).bind (fun j => b[j]?)

/-- Python `b[i] = v` on a bytearray. -/
def pySetByte (b : List Nat) (i : Int) (v : Nat) : Option (List Nat) :=
  (pyIndex b.length i).map (fun j => b.set j v)

/-- The `try`-guarded parse in `apply_modify_rule`: split the rule string
on `:`, unpack exactly six fields (labels at positions 0, 2, 4 are
ignored), then `int(_, 16)` / `int(_)` / `float(_)`.  `none` models any
exception caught by the bare `except`. -/
def parseModifyRule (rule : String) : Option (Int × Int × ℚ) :=
  match splitListOn ':' rule.toList with
  | [_, idstr, _, bytestr, _, scalestr] => do
    let idval ← pyIntHexL? idstr
    let byteidx ← pyIntL? bytestr
    let scale ← pyFloatL? scalestr
    some (idval, byteidx, scale)
  | _ => none

/-- The new byte value: `int(original * scale) & 0xFF`. -/
def mutByte (original : Nat) (scale : ℚ) : Nat :=
  ((pyTrunc ((original : ℚ) * scale)) % 256).toNat

/-- Outcome of `apply_modify_rule`: the state of the returned object, the
state of the *input* object after the call, and whether the returned
reference is the input reference (Python object identity).  The source
always returns `msg` itself, so the two states coincide and
`sameObject` is always `true`; when the rule fires, `msg.data` is
reassigned on the input object before it is returned. -/
structure ApplyResult where
  returned : Message
  inputAfter : Message
  sameObject : Bool
deriving DecidableEq, Repr

/-- Embeds `apply_modify_rule(msg, rule)` from `src/main.py`.  `none` models the
uncaught `IndexError` from `b[byteidx]` when `byteidx < -len(b)` (the
`byteidx < len(b)` guard only bounds it from above). -/
def apply_modify_rule (msg : Message) (rule : String) : Option ApplyResult :=
  match parseModifyRule rule with
  | none => some ⟨msg, msg, true⟩
  | some (idval, byteidx, scale) =>
    if msg.arbitration_id ≠ idval then some ⟨msg, msg, true⟩
    else
      if byteidx < (msg.data.length : Int) then
        match pyGetByte msg.data byteidx with
        | none => none
        | some original =>
          match pySetByte msg.data byteidx (mutByte original scale) with
          | none => none
          | some newData =>
            let m : Message := { msg with data := newData }
            some ⟨m, m, true⟩
      else some ⟨msg, msg, true⟩

example : apply_modify_rule ⟨272, false, 1, [144], 0⟩ "id:0x110:byte:0:scale:2.0" =
    some ⟨⟨272, false, 1, [32], 0⟩, ⟨272, false, 1, [32], 0⟩, true⟩ := by
  with_unfolding_all decide

example : apply_modify_rule ⟨272, false, 1, [1], 0⟩ "id:0x110:byte:0:scale:-0.5" =
    some ⟨⟨272, false, 1, [0], 0⟩, ⟨272, false, 1, [0], 0⟩, true⟩ := by
  with_unfolding_all decide

example : apply_modify_rule ⟨273, false, 1, [144], 0⟩ "id:0x110:byte:0:scale:2.0" =
    some ⟨⟨273, false, 1, [144], 0⟩, ⟨273, false, 1, [144], 0⟩, true⟩ := by
  with_unfolding_all decide

/-! ### ReplayScheduler: `replay` -/

/-- The `can.Message(...)` construction in `replay` (timestamp defaults
to `0`). -/
def mkMsg (r : Row) : Message :=
  ⟨r.ident, r.is_ext, r.dlc, r.data, 0⟩

/-- The per-frame mutation step in `replay`:
`if modify_rule: msg = apply_modify_rule(msg, modify_rule)`.  Python
truthiness makes both an absent rule and the empty string skip the call.
`none` propagates the uncaught exception from `apply_modify_rule`. -/
def applyOpt (msg : Message) (rule : Option String) : Option Message :=
  match rule with
  | none => some msg
  | some ru =>
    if ru = "" then some msg
    else (apply_modify_rule msg ru).map ApplyResult.returned

/-- One iteration of the replay loop, as observed from outside: the
computed deadline `target`, the `time.time()` reading `nowAt`, the sleep
performed (`some duration` only when `to_sleep > 0`), the message handed
to `bus.send`, and whether the send succeeded. -/
structure SendEvent where
  target : ℚ
  nowAt : ℚ
  slept : Option ℚ
  msg : Message
  ok : Bool
deriving DecidableEq, Repr

/-- The replay loop of `replay` from `src/main.py`.  `start_ts` and `t0`
are the two anchors captured once before the loop; `nows i` is the
`time.time()` reading of iteration `i` (the wall clock is external
input); `fails i` tells whether `bus.send` raises `can.CanError` at
iteration `i` (transmit failures are external input).  The result is the
list of loop iterations that ran, and `true` when the run died with the
uncaught exception of `apply_modify_rule`. -/
def replayAux (start_ts t0 : ℚ) (rule : Option String) (nows : Nat → ℚ)
    (fails : Nat → Bool) : List Row → Nat → List SendEvent × Bool
  | [], _ => ([], false)
  | r :: rest, i =>
    let target := t0 + (r.ts - start_ts)
    let to_sleep := target - nows i
    let slept := if 0 < to_sleep then some to_sleep else none
    match applyOpt (mkMsg r) rule with
    | none => ([], true)
    | some msg =>
      let out := replayAux start_ts t0 rule nows fails rest (i + 1)
      (⟨target, nows i, slept, msg, !(fails i)⟩ :: out.1, out.2)

/-- Embeds `replay(bus, csv_rows, modify_rule, ...)` from `src/main.py`: an empty
trace returns immediately; otherwise `start_ts = csv_rows[0][0]` and
`t0 = time.time()` are captured once and the loop runs. -/
def replayRun (rows : List Row) (t0 : ℚ) (nows : Nat → ℚ) (fails : Nat → Bool)
    (rule : Option String) : List SendEvent × Bool :=
  match rows with
  | [] => ([], false)
  | r :: _ => replayAux r.ts t0 rule nows fails rows 0

/-- The frames actually transmitted in a run: the `bus.send(msg)` calls
that did not raise. -/
def sentMsgs (evs : List SendEvent) : List Message :=
  (evs.filter SendEvent.ok).map SendEvent.msg

/-! ### Observation log rows (the write side used by `replay`) -/

/-- Python `int(b)` for a bool. -/
def boolToInt (b : Bool) : Int := if b then 1 else 0

/-- The row `replay` writes to the observation log:
`[time.time(), f"{id:X}", int(is_ext), dlc, data.hex()]` after the CSV
writer stringifies each entry.  The stringified wall-clock time is
abstracted as `tsStr`. -/
def logRow (tsStr : String) (msg : Message) : List String :=
  [tsStr, hexUpperOfInt msg.arbitration_id, decOfInt (boolToInt msg.is_extended_id),
    decOfInt msg.dlc, bytesHex msg.data]

/-! ### PeriodicGenerator: `generator_mode` -/

/-- The result of the generator spec parse in `generator_mode`. -/
structure GenSpec where
  idval : Int
  data : List Nat
  freq : ℚ
deriving DecidableEq, Repr

/-- The token loop of `generator_mode`: a token starting with `d` makes
the *next* token a hex data byte (appended to the bytearray, which
requires `0 ≤ v ≤ 255`); a token equal to `freq` makes the next token the
float frequency; any other token is skipped.  `none` models the uncaught
exception (`IndexError` past the end, `ValueError` from `int`/`float` or
from `bytearray.append` out of range). -/
def genLoop : List (List Char) → List Nat → ℚ → Option (List Nat × ℚ)
  | [], acc, freq => some (acc, freq)
  | p :: rest, acc, freq =>
    if p.take 1 = ['d'] then
      match rest with
      | [] => none
      | v :: rest2 =>
        match pyIntHexL? v with
        | none => none
        | some b =>
          if 0 ≤ b ∧ b ≤ 255 then genLoop rest2 (acc ++ [b.toNat]) freq else none
    else if p = "freq".toList then
      match rest with
      | [] => none
      | v :: rest2 =>
        match pyFloatL? v with
        | none => none
        | some f => genLoop rest2 acc f
    else genLoop rest acc freq

/-- The parsing phase of `generator_mode(bus, spec, ...)` from
`src/main.py`: `idval = int(parts[1], 16)` (unguarded), then the token
loop starting at index 2 with `freq = 1.0`.  `none` models an uncaught
exception, which aborts the run (`main` catches only
`KeyboardInterrupt`). -/
def generator_parse (spec : String) : Option GenSpec :=
  match (splitListOn ':' spec.toList)[1]? with
  | none => none
  | some idstr =>
    match pyIntHexL? idstr with
    | none => none
    | some idval =>
      match genLoop ((splitListOn ':' spec.toList).drop 2) [] 1 with
      | none => none
      | some (data, freq) => some ⟨idval, data, freq⟩

/-- The period computation of `generator_mode`:
`period = 1.0 / max(0.0001, freq)`. -/
def genPeriod (g : GenSpec) : ℚ := 1 / max (1 / 10000) g.freq

/-- The frame built and sent on every generator iteration:
`can.Message(arbitration_id=idval, is_extended_id=False, data=bytes(data_bytes))`
(`dlc` defaults to the payload length, `timestamp` to `0`). -/
def genMessage (g : GenSpec) : Message :=
  ⟨g.idval, false, (g.data.length : Int), g.data, 0⟩

example : generator_parse "id:0x110:d1:00:d2:3C:freq:10" =
    some ⟨272, [0, 60], 10⟩ := by with_unfolding_all decide
example : generator_parse "id:zz:freq:10" = none := by decide
example : generator_parse "id:110:d1:xx" = none := by decide

/-! ### Round-trip lemmas for the log format -/

lemma hexDigitVal_hexUpperDigit : ∀ d, d < 16 → hexDigitVal (hexUpperDigit d) = d := by
  decide

lemma isHexDigitB_hexUpperDigit : ∀ d, d < 16 → isHexDigitB (hexUpperDigit d) = true := by
  decide

lemma hexDigitVal_hexLowerDigit : ∀ d, d < 16 → hexDigitVal (hexLowerDigit d) = d := by
  decide

lemma isHexDigitB_hexLowerDigit : ∀ d, d < 16 → isHexDigitB (hexLowerDigit d) = true := by
  decide

lemma decVal_decDigitCh : ∀ d, d < 10 → chVal (decDigitCh d) - 48 = d := by decide

lemma isDigitB_decDigitCh : ∀ d, d < 10 → isDigitB (decDigitCh d) = true := by decide

lemma isSpaceB_eq_false_of_ge (c : Char) (h : 43 ≤ chVal c) : isSpaceB c = false := by
  simp only [isSpaceB, Bool.or_eq_false_iff, decide_eq_false_iff_not]
  omega

lemma chVal_ge_of_isHexDigitB (c : Char) (h : isHexDigitB c = true) : 43 ≤ chVal c := by
  simp only [isHexDigitB, Bool.or_eq_true, Bool.and_eq_true, decide_eq_true_eq] at h
  omega

lemma chVal_ge_of_isDigitB (c : Char) (h : isDigitB c = true) : 43 ≤ chVal c := by
  simp only [isDigitB, Bool.and_eq_true, decide_eq_true_eq] at h
  omega

lemma dropWhile_eq_self_of_all {p : Char → Bool} (cs : List Char)
    (h : ∀ c ∈ cs, p c = false) : cs.dropWhile p = cs := by
  cases cs with
  | nil => rfl
  | cons c t => simp [List.dropWhile_cons, h c (by simp)]

lemma stripList_eq_self (cs : List Char) (h : ∀ c ∈ cs, isSpaceB c = false) :
    stripList cs = cs := by
  unfold stripList
  rw [dropWhile_eq_self_of_all cs h,
    dropWhile_eq_self_of_all _ (fun c hc => h c (List.mem_reverse.mp hc)),
    List.reverse_reverse]

lemma valFold_append (base : Nat) (dv : Char → Nat) (cs : List Char) (c : Char) :
    valFold base dv (cs ++ [c]) = base * valFold base dv cs + dv c := by
  simp [valFold, List.foldl_append]

lemma digitsRev_lt (base : Nat) (hb : 2 ≤ base) :
    ∀ fuel n, ∀ d ∈ digitsRev base fuel n, d < base := by
  intro fuel
  induction fuel with
  | zero => intro n d hd; cases n <;> simp [digitsRev] at hd
  | succ f ih =>
    intro n d hd
    cases n with
    | zero => simp [digitsRev] at hd
    | succ m =>
      simp only [digitsRev, List.mem_cons] at hd
      rcases hd with h | h
      · subst h; exact Nat.mod_lt _ (by omega)
      · exact ih _ d h

lemma valFold_digitsRev (base : Nat) (dv : Char → Nat) (dig : Nat → Char)
    (hb : 2 ≤ base) (hdv : ∀ d, d < base → dv (dig d) = d) :
    ∀ fuel n, n ≤ fuel →
      valFold base dv (((digitsRev base fuel n).map dig).reverse) = n := by
  intro fuel
  induction fuel with
  | zero =>
    intro n hn
    interval_cases n
    rfl
  | succ f ih =>
    intro n hn
    cases n with
    | zero => rfl
    | succ m =>
      have hdiv : (m + 1) / base < m + 1 := Nat.div_lt_self (Nat.succ_pos m) (by omega)
      have hle : (m + 1) / base ≤ f := by omega
      show valFold base dv ((((m + 1) % base :: digitsRev base f ((m + 1) / base)).map dig).reverse) = m + 1
      rw [List.map_cons, List.reverse_cons, valFold_append, ih _ hle,
        hdv _ (Nat.mod_lt _ (by omega))]
      have := Nat.div_add_mod (m + 1) base
      omega

lemma all_map_digitsRev (base : Nat) (dig : Nat → Char) (accept : Char → Bool)
    (hb : 2 ≤ base) (hacc : ∀ d, d < base → accept (dig d) = true) :
    ∀ fuel n, ((digitsRev base fuel n).map dig).all accept = true := by
  intro fuel n
  rw [List.all_eq_true]
  intro c hc
  rw [List.mem_map] at hc
  obtain ⟨d, hd, rfl⟩ := hc
  exact hacc d (digitsRev_lt base hb fuel n d hd)

lemma digitsRev_ne_nil (base : Nat) (fuel m : Nat) (h : m + 1 ≤ fuel) :
    digitsRev base fuel (m + 1) ≠ [] := by
  cases fuel with
  | zero => omega
  | succ f => simp [digitsRev]

lemma all_natToBaseChars (base : Nat) (dig : Nat → Char) (accept : Char → Bool)
    (hb : 2 ≤ base) (hacc : ∀ d, d < base → accept (dig d) = true) (n : Nat) :
    (natToBaseChars base dig n).all accept = true := by
  unfold natToBaseChars
  split
  · simp [hacc 0 (by omega)]
  · rw [List.all_reverse]
    exact all_map_digitsRev base dig accept hb hacc n n

lemma natToBaseChars_ne_nil (base : Nat) (dig : Nat → Char) (n : Nat) :
    natToBaseChars base dig n ≠ [] := by
  unfold natToBaseChars
  split
  · simp
  · rename_i h
    cases hn : n with
    | zero => exact absurd hn h
    | succ m =>
      rw [hn] at *
      have := digitsRev_ne_nil base (m + 1) m (le_refl _)
      simpa using this

lemma valFold_natToBaseChars (base : Nat) (dv : Char → Nat) (dig : Nat → Char)
    (hb : 2 ≤ base) (hdv : ∀ d, d < base → dv (dig d) = d) (hz : dv (dig 0) = 0) (n : Nat) :
    valFold base dv (natToBaseChars base dig n) = n := by
  unfold natToBaseChars
  split
  · rename_i h; subst h; simp [valFold, hz]
  · exact valFold_digitsRev base dv dig hb hdv n n (le_refl n)

lemma parseHexDigits_natToBaseChars (n : Nat) :
    parseHexDigits? (natToBaseChars 16 hexUpperDigit n) = some n := by
  unfold parseHexDigits?
  rw [if_pos]
  · rw [valFold_natToBaseChars 16 hexDigitVal hexUpperDigit (by omega)
      hexDigitVal_hexUpperDigit (by decide) n]
  · exact ⟨natToBaseChars_ne_nil _ _ _,
      all_natToBaseChars 16 hexUpperDigit isHexDigitB (by omega) isHexDigitB_hexUpperDigit n⟩

lemma parseDecDigits_natToBaseChars (n : Nat) :
    parseDecDigits? (natToBaseChars 10 decDigitCh n) = some n := by
  unfold parseDecDigits?
  rw [if_pos]
  · rw [valFold_natToBaseChars 10 (fun c => chVal c - 48) decDigitCh (by omega)
      decVal_decDigitCh (by decide) n]
  · exact ⟨natToBaseChars_ne_nil _ _ _,
      all_natToBaseChars 10 decDigitCh isDigitB (by omega) isDigitB_decDigitCh n⟩

lemma not_space_of_all_hex (cs : List Char) (h : cs.all isHexDigitB = true) :
    ∀ c ∈ cs, isSpaceB c = false := by
  intro c hc
  rw [List.all_eq_true] at h
  exact isSpaceB_eq_false_of_ge c (chVal_ge_of_isHexDigitB c (h c hc))

lemma not_space_of_all_digit (cs : List Char) (h : cs.all isDigitB = true) :
    ∀ c ∈ cs, isSpaceB c = false := by
  intro c hc
  rw [List.all_eq_true] at h
  exact isSpaceB_eq_false_of_ge c (chVal_ge_of_isDigitB c (h c hc))

lemma take2_hex_no_marker (cs : List Char) (h : cs.all isHexDigitB = true) :
    ¬(cs.take 2 = ['0', 'x'] ∨ cs.take 2 = ['0', 'X']) := by
  rw [List.all_eq_true] at h
  rintro (ht | ht)
  · have hmem : 'x' ∈ cs := List.take_subset 2 cs (by rw [ht]; simp)
    have hx := h _ hmem
    revert hx
    decide
  · have hmem : 'X' ∈ cs := List.take_subset 2 cs (by rw [ht]; simp)
    have hx := h _ hmem
    revert hx
    decide

lemma parseHexBody_natToBaseChars (n : Nat) :
    parseHexBody? (natToBaseChars 16 hexUpperDigit n) = some n := by
  unfold parseHexBody?
  rw [if_neg (take2_hex_no_marker _ (all_natToBaseChars 16 hexUpperDigit isHexDigitB
    (by omega) isHexDigitB_hexUpperDigit n))]
  exact parseHexDigits_natToBaseChars n

lemma head_not_sign_of_hex (c : Char) (t : List Char)
    (h : (c :: t).all isHexDigitB = true) : ¬c = '-' ∧ ¬c = '+' := by
  rw [List.all_eq_true] at h
  have := h c (by simp)
  constructor <;> rintro rfl <;> revert this <;> decide

/-- The write side `f"{n:X}"` parses back through `int(_, 16)` to the
same integer. -/
lemma pyIntHexL_hexUpperOfInt (n : Int) :
    pyIntHexL? (hexUpperOfInt n).toList = some n := by
  cases n with
  | ofNat m =>
    show pyIntHexL? (natToBaseChars 16 hexUpperDigit m) = some (m : Int)
    have hall := all_natToBaseChars 16 hexUpperDigit isHexDigitB (by omega)
      isHexDigitB_hexUpperDigit m
    unfold pyIntHexL?
    rw [stripList_eq_self _ (not_space_of_all_hex _ hall)]
    obtain ⟨c, t, hct⟩ : ∃ c t, natToBaseChars 16 hexUpperDigit m = c :: t := by
      cases hcs : natToBaseChars 16 hexUpperDigit m with
      | nil => exact absurd hcs (natToBaseChars_ne_nil _ _ _)
      | cons c t => exact ⟨c, t, rfl⟩
    rw [hct] at hall ⊢
    obtain ⟨h1, h2⟩ := head_not_sign_of_hex c t hall
    rw [if_neg (by simp [h1]), if_neg (by simp [h2]), ← hct, parseHexBody_natToBaseChars]
    rfl
  | negSucc m =>
    show pyIntHexL? ('-' :: natToBaseChars 16 hexUpperDigit (m + 1)) = some (Int.negSucc m)
    have hall := all_natToBaseChars 16 hexUpperDigit isHexDigitB (by omega)
      isHexDigitB_hexUpperDigit (m + 1)
    unfold pyIntHexL?
    rw [stripList_eq_self _ ?hns]
    case hns =>
      intro c hc
      rcases List.mem_cons.mp hc with rfl | hmem
      · decide
      · exact not_space_of_all_hex _ hall c hmem
    simp only [List.take_succ_cons, List.take_zero, List.drop_succ_cons, List.drop_zero]
    rw [if_pos trivial]
    show (parseHexBody? (natToBaseChars 16 hexUpperDigit (m + 1))).map (fun n => -(n : Int)) =
      some (Int.negSucc m)
    rw [parseHexBody_natToBaseChars]
    show some (-((m + 1 : Nat) : Int)) = some (Int.negSucc m)
    congr 1

lemma head_not_sign_of_digit (c : Char) (t : List Char)
    (h : (c :: t).all isDigitB = true) : ¬c = '-' ∧ ¬c = '+' := by
  rw [List.all_eq_true] at h
  have := h c (by simp)
  constructor <;> rintro rfl <;> revert this <;> decide

/-- The write side `str(n)` parses back through `int(_)` to the same
integer. -/
lemma pyIntL_decOfInt (n : Int) :
    pyIntL? (decOfInt n).toList = some n := by
  cases n with
  | ofNat m =>
    show pyIntL? (natToBaseChars 10 decDigitCh m) = some (m : Int)
    have hall := all_natToBaseChars 10 decDigitCh isDigitB (by omega)
      isDigitB_decDigitCh m
    unfold pyIntL?
    rw [stripList_eq_self _ (not_space_of_all_digit _ hall)]
    obtain ⟨c, t, hct⟩ : ∃ c t, natToBaseChars 10 decDigitCh m = c :: t := by
      cases hcs : natToBaseChars 10 decDigitCh m with
      | nil => exact absurd hcs (natToBaseChars_ne_nil _ _ _)
      | cons c t => exact ⟨c, t, rfl⟩
    rw [hct] at hall ⊢
    obtain ⟨h1, h2⟩ := head_not_sign_of_digit c t hall
    rw [if_neg (by simp [h1]), if_neg (by simp [h2]), ← hct, parseDecDigits_natToBaseChars]
    rfl
  | negSucc m =>
    show pyIntL? ('-' :: natToBaseChars 10 decDigitCh (m + 1)) = some (Int.negSucc m)
    have hall := all_natToBaseChars 10 decDigitCh isDigitB (by omega)
      isDigitB_decDigitCh (m + 1)
    unfold pyIntL?
    rw [stripList_eq_self _ ?hns]
    case hns =>
      intro c hc
      rcases List.mem_cons.mp hc with rfl | hmem
      · decide
      · exact not_space_of_all_digit _ hall c hmem
    simp only [List.take_succ_cons, List.take_zero, List.drop_succ_cons, List.drop_zero]
    rw [if_pos trivial]
    show (parseDecDigits? (natToBaseChars 10 decDigitCh (m + 1))).map (fun n => -(n : Int)) =
      some (Int.negSucc m)
    rw [parseDecDigits_natToBaseChars]
    show some (-((m + 1 : Nat) : Int)) = some (Int.negSucc m)
    congr 1

/-- Round trip: `bytes.fromhex(data.hex())` recovers the bytes. -/
lemma fromhexL_bytesHex (data : List Nat) (h : ∀ b ∈ data, b < 256) :
    fromhexL? (bytesHex data).toList = some data := by
  show fromhexL? ((data.map byteHexChars).flatten) = some data
  induction data with
  | nil => rfl
  | cons b rest ih =>
    have hb : b < 256 := h b (by simp)
    have hdiv : b / 16 < 16 := by omega
    have hmod : b % 16 < 16 := Nat.mod_lt _ (by omega)
    show fromhexL? (hexLowerDigit (b / 16) :: hexLowerDigit (b % 16) ::
      (rest.map byteHexChars).flatten) = some (b :: rest)
    unfold fromhexL?
    rw [if_pos (by rw [isHexDigitB_hexLowerDigit _ hdiv, isHexDigitB_hexLowerDigit _ hmod]; rfl)]
    rw [ih (fun x hx => h x (by simp [hx]))]
    show some ((16 * hexDigitVal (hexLowerDigit (b / 16)) +
      hexDigitVal (hexLowerDigit (b % 16))) :: rest) = some (b :: rest)
    have hb16 : 16 * (b / 16) + b % 16 = b := by omega
    rw [hexDigitVal_hexLowerDigit _ hdiv, hexDigitVal_hexLowerDigit _ hmod, hb16]

lemma bytesHex_all_not_space (data : List Nat) (h : ∀ b ∈ data, b < 256) :
    ∀ c ∈ (bytesHex data).toList, isSpaceB c = false := by
  intro c hc
  have hc' : c ∈ (data.map byteHexChars).flatten := hc
  rw [List.mem_flatten] at hc'
  obtain ⟨l, hl, hcl⟩ := hc'
  rw [List.mem_map] at hl
  obtain ⟨b, hb, rfl⟩ := hl
  have hblt : b < 256 := h b hb
  apply isSpaceB_eq_false_of_ge
  apply chVal_ge_of_isHexDigitB
  simp only [byteHexChars, List.mem_cons, List.not_mem_nil, or_false] at hcl
  rcases hcl with rfl | rfl
  · exact isHexDigitB_hexLowerDigit _ (by omega)
  · exact isHexDigitB_hexLowerDigit _ (Nat.mod_lt _ (by omega))

lemma bool_of_decide_boolToInt (b : Bool) : (!decide (boolToInt b = 0)) = b := by
  cases b <;> rfl

/-! ### Claim C9: log-format round trip -/

/-- C9.  Writing a FrameRecord as a log row (timestamp, hex id without
prefix, is_extended as 0/1, decimal dlc, data as hex string) and parsing
that row back with `parse_csv_row` yields a record with identical id,
is_extended, dlc and data bytes; only the timestamp (abstracted as the
stringified wall-clock reading `tsStr`, any parsable float string) may
differ. -/
theorem C9_log_roundtrip (tsStr : String) (t : ℚ) (msg : Message)
    (ht : pyFloat? tsStr = some t) (hd : ∀ b ∈ msg.data, b < 256) :
    parse_csv_row (logRow tsStr msg) =
      some ⟨t, msg.arbitration_id, msg.is_extended_id, msg.dlc, msg.data⟩ := by
  have h1 : pyIntHex? (hexUpperOfInt msg.arbitration_id) = some msg.arbitration_id :=
    pyIntHexL_hexUpperOfInt _
  have h2 : pyInt? (decOfInt (boolToInt msg.is_extended_id)) =
      some (boolToInt msg.is_extended_id) := pyIntL_decOfInt _
  have h3 : pyInt? (decOfInt msg.dlc) = some msg.dlc := pyIntL_decOfInt _
  have h4 : fromhexL? (stripList (bytesHex msg.data).toList) = some msg.data := by
    rw [stripList_eq_self _ (bytesHex_all_not_space _ hd)]
    exact fromhexL_bytesHex _ hd
  have h4d : fromhexL? (stripList (bytesHex msg.data).data) = some msg.data := h4
  simp [parse_csv_row, logRow, ht, h1, h2, h3, h4, h4d, bool_of_decide_boolToInt]

/-- Closed witness for C9 at a concrete frame and timestamp string. -/
theorem C9_log_roundtrip_witness :
    parse_csv_row (logRow "3.25" ⟨272, true, 8, [1, 2, 255], 0⟩) =
      some ⟨13/4, 272, true, 8, [1, 2, 255]⟩ :=
  C9_log_roundtrip "3.25" (13/4) ⟨272, true, 8, [1, 2, 255], 0⟩
    (by with_unfolding_all decide) (by decide)

/-! ### Characterization of `apply_modify_rule` on the firing path -/

/-- The message after the rule fires: same object, `data[byteidx]`
replaced by `int(original * scale) & 0xFF`. -/
def mutatedMsg (msg : Message) (bi : Nat) (scale : ℚ) : Message :=
  { msg with data := msg.data.set bi (mutByte (msg.data.getD bi 0) scale) }

lemma apply_modify_rule_fires (msg : Message) (rule : String) (idval bi : Int) (sc : ℚ)
    (hp : parseModifyRule rule = some (idval, bi, sc))
    (hid : msg.arbitration_id = idval) (h0 : 0 ≤ bi) (hlt : bi < (msg.data.length : Int)) :
    apply_modify_rule msg rule =
      some ⟨mutatedMsg msg bi.toNat sc, mutatedMsg msg bi.toNat sc, true⟩ := by
  unfold apply_modify_rule
  rw [hp]
  dsimp only
  rw [if_neg (by simp [hid])]
  rw [if_pos hlt]
  have hidx : pyIndex msg.data.length bi = some bi.toNat := by
    unfold pyIndex
    rw [if_pos h0, if_pos hlt]
  have hjlt : bi.toNat < msg.data.length := by omega
  have hget : pyGetByte msg.data bi = some (msg.data.getD bi.toNat 0) := by
    unfold pyGetByte
    rw [hidx]
    simp [List.getD_eq_getElem?_getD, List.getElem?_eq_getElem hjlt]
  have hset : pySetByte msg.data bi (mutByte (msg.data.getD bi.toNat 0) sc) =
      some (msg.data.set bi.toNat (mutByte (msg.data.getD bi.toNat 0) sc)) := by
    unfold pySetByte
    rw [hidx]
    rfl
  rw [hget]
  dsimp only
  rw [hset]
  rfl

lemma apply_modify_rule_skips (msg : Message) (rule : String) (idval bi : Int) (sc : ℚ)
    (hp : parseModifyRule rule = some (idval, bi, sc))
    (h : msg.arbitration_id ≠ idval ∨ (msg.data.length : Int) ≤ bi) :
    apply_modify_rule msg rule = some ⟨msg, msg, true⟩ := by
  unfold apply_modify_rule
  rw [hp]
  dsimp only
  by_cases hid : msg.arbitration_id = idval
  · rcases h with h | h
    · exact absurd hid h
    · rw [if_neg (by simp [hid]), if_neg (by omega)]
  · rw [if_pos hid]

/-! ### Claims C1, C2, C4, C6: the mutation rule -/

lemma getD_set_self (l : List Nat) (i : Nat) (h : i < l.length) (v : Nat) :
    (l.set i v).getD i 0 = v := by
  rw [List.getD_eq_getElem?_getD, List.getElem?_set_self h]
  rfl

/-- The concrete frame and rule used to refute C1. -/
def msgC1 : Message := ⟨272, false, 1, [144], 0⟩

def ruleC1 : String := "id:0x110:byte:0:scale:2.0"

/-- C1 is false as stated: on a matching frame (id 0x110, one data byte
0x90, rule byte 0 scale 2.0) `apply_modify_rule` returns the *same*
object (Python identity), and the input frame's state after the call
differs from its state before (`msg.data` was reassigned in place): the
source never copies the record. -/
theorem C1_counterexample :
    (apply_modify_rule msgC1 ruleC1).map ApplyResult.sameObject = some true ∧
    (apply_modify_rule msgC1 ruleC1).map ApplyResult.inputAfter ≠ some msgC1 := by
  with_unfolding_all decide

/-- C1 (amended).  For every frame whose id equals the rule's match id
and whose data length exceeds the (non-negative) byte index, applying
the mutation rule returns the *input object itself*, mutated in place:
the returned state agrees with the input on id, is_extended, dlc and
timestamp and on every data byte except the one at the byte index, but
the input record is the returned record (`sameObject`, equal
`inputAfter`), not an unchanged copy. -/
theorem C1_amended (msg : Message) (rule : String) (idval bi : Int) (sc : ℚ)
    (hp : parseModifyRule rule = some (idval, bi, sc))
    (hid : msg.arbitration_id = idval) (h0 : 0 ≤ bi) (hlt : bi < (msg.data.length : Int)) :
    apply_modify_rule msg rule =
      some ⟨mutatedMsg msg bi.toNat sc, mutatedMsg msg bi.toNat sc, true⟩ ∧
    (mutatedMsg msg bi.toNat sc).arbitration_id = msg.arbitration_id ∧
    (mutatedMsg msg bi.toNat sc).is_extended_id = msg.is_extended_id ∧
    (mutatedMsg msg bi.toNat sc).dlc = msg.dlc ∧
    (mutatedMsg msg bi.toNat sc).timestamp = msg.timestamp ∧
    (∀ j : Nat, j ≠ bi.toNat → (mutatedMsg msg bi.toNat sc).data[j]? = msg.data[j]?) := by
  refine ⟨apply_modify_rule_fires msg rule idval bi sc hp hid h0 hlt, rfl, rfl, rfl, rfl, ?_⟩
  intro j hj
  show (msg.data.set bi.toNat (mutByte (msg.data.getD bi.toNat 0) sc))[j]? = msg.data[j]?
  exact List.getElem?_set_ne (by omega)

/-- Closed witness for the amended C1 at the counterexample's input. -/
theorem C1_amended_witness :
    apply_modify_rule msgC1 ruleC1 =
      some ⟨mutatedMsg msgC1 0 2, mutatedMsg msgC1 0 2, true⟩ ∧
    (mutatedMsg msgC1 0 2).timestamp = msgC1.timestamp := by
  have h := C1_amended msgC1 ruleC1 272 0 2 (by with_unfolding_all decide)
    (by decide) (by decide) (by decide)
  exact ⟨h.1, h.2.2.2.2.1⟩

/-- The concrete frame and rule used to refute C2. -/
def msgC2 : Message := ⟨272, false, 1, [1], 0⟩

def ruleC2 : String := "id:0x110:byte:0:scale:-0.5"

/-- C2 is false as stated: for the matching frame with data byte 1 and
scale −0.5 the code computes `int(1 * -0.5) & 0xFF = 0` (truncation
toward zero), while the claimed formula `floor(1 * -0.5) mod 256` gives
255. -/
theorem C2_counterexample :
    (apply_modify_rule msgC2 ruleC2).map (fun r => r.returned.data) = some [0] ∧
    ((⌊(1 : ℚ) * (-(1/2) : ℚ)⌋ % 256 : Int) ≠ 0) := by
  constructor
  · with_unfolding_all decide
  · with_unfolding_all decide

/-- C2 (amended).  For every matching frame and every parsed scale the
mutated byte equals `trunc(original * scale) mod 256` — truncation
toward zero (Python `int()`), which coincides with `floor` whenever the
product is non-negative; wrapping is mod 256. -/
theorem C2_amended (msg : Message) (rule : String) (idval bi : Int) (sc : ℚ)
    (hp : parseModifyRule rule = some (idval, bi, sc))
    (hid : msg.arbitration_id = idval) (h0 : 0 ≤ bi) (hlt : bi < (msg.data.length : Int)) :
    (apply_modify_rule msg rule).map (fun r => r.returned.data.getD bi.toNat 0) =
      some (((pyTrunc (((msg.data.getD bi.toNat 0 : Nat) : ℚ) * sc)) % 256).toNat) := by
  rw [apply_modify_rule_fires msg rule idval bi sc hp hid h0 hlt]
  show some ((mutatedMsg msg bi.toNat sc).data.getD bi.toNat 0) = _
  unfold mutatedMsg
  show some ((msg.data.set bi.toNat (mutByte (msg.data.getD bi.toNat 0) sc)).getD bi.toNat 0) = _
  rw [getD_set_self msg.data bi.toNat (by omega) _]
  rfl

/-- Closed witness for the amended C2: scale 2.0 on original byte 0x90
(144) yields 32 (0x20), as `trunc(288) mod 256 = 32`. -/
theorem C2_amended_witness :
    (apply_modify_rule ⟨272, false, 1, [144], 0⟩ "id:0x110:byte:0:scale:2.0").map
      (fun r => r.returned.data.getD 0 0) = some 32 := by
  have h := C2_amended ⟨272, false, 1, [144], 0⟩ "id:0x110:byte:0:scale:2.0" 272 0 2
    (by with_unfolding_all decide) (by decide) (by decide) (by decide)
  exact h.trans (by with_unfolding_all decide)

/-- C4.  For every frame and every rule that parses, applying the rule
is a no-op — the frame is returned unchanged (identity: same object,
same state) — whenever the frame id differs from the rule's match id or
the byte index is not below the data length. -/
theorem C4_no_op (msg : Message) (rule : String) (idval bi : Int) (sc : ℚ)
    (hp : parseModifyRule rule = some (idval, bi, sc))
    (h : msg.arbitration_id ≠ idval ∨ (msg.data.length : Int) ≤ bi) :
    apply_modify_rule msg rule = some ⟨msg, msg, true⟩ :=
  apply_modify_rule_skips msg rule idval bi sc hp h

/-- Closed witness for C4: an id mismatch and an out-of-range byte index
both pass the frame through unchanged. -/
theorem C4_no_op_witness :
    apply_modify_rule ⟨273, false, 1, [144], 0⟩ "id:0x110:byte:0:scale:2.0" =
      some ⟨⟨273, false, 1, [144], 0⟩, ⟨273, false, 1, [144], 0⟩, true⟩ ∧
    apply_modify_rule ⟨272, false, 1, [144], 0⟩ "id:0x110:byte:5:scale:2.0" =
      some ⟨⟨272, false, 1, [144], 0⟩, ⟨272, false, 1, [144], 0⟩, true⟩ :=
  ⟨C4_no_op ⟨273, false, 1, [144], 0⟩ "id:0x110:byte:0:scale:2.0" 272 0 2
      (by with_unfolding_all decide) (Or.inl (by decide)),
    C4_no_op ⟨272, false, 1, [144], 0⟩ "id:0x110:byte:5:scale:2.0" 272 5 2
      (by with_unfolding_all decide) (Or.inr (by decide))⟩

/-- C6.  For every frame and every mutation-rule string whose fields
fail to parse (any exception caught by the bare `except`: wrong token
count, non-hex id, non-integer index, non-float scale), applying the
rule returns the frame unchanged and never raises. -/
theorem C6_malformed_rule_no_op (msg : Message) (rule : String)
    (hp : parseModifyRule rule = none) :
    apply_modify_rule msg rule = some ⟨msg, msg, true⟩ := by
  unfold apply_modify_rule
  rw [hp]

/-- Closed witness for C6 covering the four malformation kinds named by
the claim: wrong token count, non-hex id, non-integer index, non-float
scale. -/
theorem C6_malformed_rule_no_op_witness :
    (parseModifyRule "id:0x110:byte:2" = none ∧
      apply_modify_rule msgC1 "id:0x110:byte:2" = some ⟨msgC1, msgC1, true⟩) ∧
    (parseModifyRule "id:zz:byte:2:scale:0.5" = none ∧
      apply_modify_rule msgC1 "id:zz:byte:2:scale:0.5" = some ⟨msgC1, msgC1, true⟩) ∧
    (parseModifyRule "id:0x110:byte:x:scale:0.5" = none ∧
      apply_modify_rule msgC1 "id:0x110:byte:x:scale:0.5" = some ⟨msgC1, msgC1, true⟩) ∧
    (parseModifyRule "id:0x110:byte:2:scale:abc" = none ∧
      apply_modify_rule msgC1 "id:0x110:byte:2:scale:abc" = some ⟨msgC1, msgC1, true⟩) :=
  ⟨⟨by decide, C6_malformed_rule_no_op msgC1 "id:0x110:byte:2" (by decide)⟩,
    ⟨by decide, C6_malformed_rule_no_op msgC1 "id:zz:byte:2:scale:0.5" (by decide)⟩,
    ⟨by decide, C6_malformed_rule_no_op msgC1 "id:0x110:byte:x:scale:0.5" (by decide)⟩,
    ⟨by decide, C6_malformed_rule_no_op msgC1 "id:0x110:byte:2:scale:abc" (by decide)⟩⟩

/-! ### Claims C3, C7: the replay loop -/

/-- The event iteration `i` of the replay loop produces when the rule
application returns normally. -/
def expectedEvent (start_ts t0 : ℚ) (rule : Option String) (nows : Nat → ℚ)
    (fails : Nat → Bool) (i : Nat) (r : Row) : SendEvent :=
  ⟨t0 + (r.ts - start_ts), nows i,
    if 0 < t0 + (r.ts - start_ts) - nows i then some (t0 + (r.ts - start_ts) - nows i) else none,
    (applyOpt (mkMsg r) rule).getD (mkMsg r), !(fails i)⟩

lemma replayAux_eq (start_ts t0 : ℚ) (rule : Option String) (nows : Nat → ℚ)
    (fails : Nat → Bool) :
    ∀ (rows : List Row) (i : Nat), (∀ r ∈ rows, (applyOpt (mkMsg r) rule).isSome) →
      replayAux start_ts t0 rule nows fails rows i =
        ((rows.enumFrom i).map
          (fun p => expectedEvent start_ts t0 rule nows fails p.1 p.2), false) := by
  intro rows
  induction rows with
  | nil => intro i _; rfl
  | cons r rest ih =>
    intro i h
    have hr : (applyOpt (mkMsg r) rule).isSome := h r (by simp)
    obtain ⟨msg, hmsg⟩ := Option.isSome_iff_exists.mp hr
    unfold replayAux
    rw [hmsg]
    dsimp only
    rw [ih (i + 1) (fun x hx => h x (List.mem_cons_of_mem _ hx))]
    rw [List.enumFrom_cons, List.map_cons]
    unfold expectedEvent
    rw [hmsg]
    rfl

lemma replayRun_eq (rows : List Row) (t0 : ℚ) (nows : Nat → ℚ) (fails : Nat → Bool)
    (rule : Option String) (r0 : Row) (rest : List Row) (hrows : rows = r0 :: rest)
    (ha : ∀ r ∈ rows, (applyOpt (mkMsg r) rule).isSome) :
    replayRun rows t0 nows fails rule =
      ((rows.enumFrom 0).map
        (fun p => expectedEvent r0.ts t0 rule nows fails p.1 p.2), false) := by
  subst hrows
  unfold replayRun
  exact replayAux_eq r0.ts t0 rule nows fails (r0 :: rest) 0 ha

lemma filter_ok_eq_self (evs : List SendEvent) (h : ∀ e ∈ evs, e.ok = true) :
    evs.filter SendEvent.ok = evs :=
  List.filter_eq_self.mpr h

/-- C3.  For every trace, every wall-clock behaviour and every rule
whose per-frame application returns normally, when no transmit failure
occurs the replay run does not abort, attempts exactly one send per
trace record, and the sent frames are exactly the per-record transforms
of the trace, in trace order (no reordering, no retries). -/
theorem C3_replay_sends_all (rows : List Row) (t0 : ℚ) (nows : Nat → ℚ)
    (fails : Nat → Bool) (rule : Option String)
    (hf : ∀ i, fails i = false)
    (ha : ∀ r ∈ rows, (applyOpt (mkMsg r) rule).isSome) :
    (replayRun rows t0 nows fails rule).2 = false ∧
    (replayRun rows t0 nows fails rule).1.length = rows.length ∧
    sentMsgs (replayRun rows t0 nows fails rule).1 =
      rows.map (fun r => (applyOpt (mkMsg r) rule).getD (mkMsg r)) := by
  cases rows with
  | nil => exact ⟨rfl, rfl, rfl⟩
  | cons r0 rest =>
    rw [replayRun_eq (r0 :: rest) t0 nows fails rule r0 rest rfl ha]
    refine ⟨rfl, ?_, ?_⟩
    · simp [List.enumFrom_length]
    · unfold sentMsgs
      rw [filter_ok_eq_self]
      · rw [List.map_map]
        have : ((r0 :: rest).enumFrom 0).map
            ((fun e => e.msg) ∘ fun p => expectedEvent r0.ts t0 rule nows fails p.1 p.2) =
            ((r0 :: rest).enumFrom 0).map
            ((fun r => (applyOpt (mkMsg r) rule).getD (mkMsg r)) ∘ Prod.snd) := by
          apply List.map_congr_left
          intro p _
          rfl
        rw [this, ← List.map_map, List.enumFrom_map_snd]
      · intro e he
        rw [List.mem_map] at he
        obtain ⟨p, _, rfl⟩ := he
        show (expectedEvent r0.ts t0 rule nows fails p.1 p.2).ok = true
        unfold expectedEvent
        rw [hf p.1]
        rfl

/-- Closed witness for C3 on a two-row trace with the end-to-end rule of
the spec (`id:0x110:byte:0:scale:0.5`): both frames are sent, in order,
with first bytes 0 and 4. -/
theorem C3_replay_sends_all_witness :
    (replayRun [⟨0, 272, false, 8, [1, 2]⟩, ⟨1/2, 272, false, 8, [8, 2]⟩] 100
        (fun _ => 100) (fun _ => false) (some "id:0x110:byte:0:scale:0.5")).2 = false ∧
    (replayRun [⟨0, 272, false, 8, [1, 2]⟩, ⟨1/2, 272, false, 8, [8, 2]⟩] 100
        (fun _ => 100) (fun _ => false) (some "id:0x110:byte:0:scale:0.5")).1.length = 2 ∧
    sentMsgs (replayRun [⟨0, 272, false, 8, [1, 2]⟩, ⟨1/2, 272, false, 8, [8, 2]⟩] 100
        (fun _ => 100) (fun _ => false) (some "id:0x110:byte:0:scale:0.5")).1 =
      [⟨272, false, 8, [0, 2], 0⟩, ⟨272, false, 8, [4, 2], 0⟩] := by
  have h := C3_replay_sends_all [⟨0, 272, false, 8, [1, 2]⟩, ⟨1/2, 272, false, 8, [8, 2]⟩]
    100 (fun _ => 100) (fun _ => false) (some "id:0x110:byte:0:scale:0.5")
    (fun _ => rfl) (by with_unfolding_all decide)
  exact ⟨h.1, h.2.1, h.2.2.trans (by with_unfolding_all decide)⟩

/-- C7.  For every non-empty trace the replay run anchors once on the
first record's timestamp and on the wall-clock reading `t0` taken before
the loop: the deadline of the record at position `j` is
`t0 + (ts_j - ts_0)`; the loop sleeps exactly `target - now` and only
when that is strictly positive (otherwise it sends immediately); and the
deadlines do not depend on the observed wall-clock readings at all — no
catch-up compensation ever alters a later frame's deadline. -/
theorem C7_replay_timing (rows : List Row) (t0 : ℚ) (nows : Nat → ℚ) (fails : Nat → Bool)
    (rule : Option String) (r0 : Row) (rest : List Row) (hrows : rows = r0 :: rest)
    (ha : ∀ r ∈ rows, (applyOpt (mkMsg r) rule).isSome) :
    ((replayRun rows t0 nows fails rule).1.map SendEvent.target =
      rows.map (fun r => t0 + (r.ts - r0.ts))) ∧
    (∀ (j : Nat) (e : SendEvent), (replayRun rows t0 nows fails rule).1[j]? = some e →
      e.nowAt = nows j ∧
      e.slept = (if 0 < e.target - nows j then some (e.target - nows j) else none)) ∧
    (∀ nows' : Nat → ℚ,
      (replayRun rows t0 nows' fails rule).1.map SendEvent.target =
        rows.map (fun r => t0 + (r.ts - r0.ts))) := by
  have htar : ∀ nw : Nat → ℚ,
      (replayRun rows t0 nw fails rule).1.map SendEvent.target =
        rows.map (fun r => t0 + (r.ts - r0.ts)) := by
    intro nw
    rw [replayRun_eq rows t0 nw fails rule r0 rest hrows ha]
    rw [List.map_map]
    have : (rows.enumFrom 0).map
        (SendEvent.target ∘ fun p => expectedEvent r0.ts t0 rule nw fails p.1 p.2) =
        (rows.enumFrom 0).map ((fun r => t0 + (r.ts - r0.ts)) ∘ Prod.snd) := by
      apply List.map_congr_left
      intro p _
      rfl
    rw [this, ← List.map_map, List.enumFrom_map_snd]
  refine ⟨htar nows, ?_, htar⟩
  intro j e he
  rw [replayRun_eq rows t0 nows fails rule r0 rest hrows ha] at he
  rw [List.getElem?_map, List.getElem?_enumFrom] at he
  cases hr : rows[j]? with
  | none => rw [hr] at he; simp at he
  | some r =>
    rw [hr] at he
    simp only [Option.map_some'] at he
    have he' : expectedEvent r0.ts t0 rule nows fails (0 + j) r = e := Option.some_inj.mp he
    subst he'
    constructor
    · show nows (0 + j) = nows j
      rw [Nat.zero_add]
    · show (expectedEvent r0.ts t0 rule nows fails (0 + j) r).slept = _
      unfold expectedEvent
      rw [Nat.zero_add]

/-- Concrete two-row trace for the C7 witness. -/
def rowsW7 : List Row := [⟨0, 272, false, 1, [1]⟩, ⟨1/2, 272, false, 1, [2]⟩]

/-- Wall-clock readings for the C7 witness: the first reading is a
quarter second early, the second is half a second late. -/
def nowsW7 : Nat → ℚ := fun i => if i = 0 then 399/4 else 101

/-- The first loop iteration of the C7 witness run. -/
def evW7 : SendEvent := ⟨100, 399/4, some (1/4), ⟨272, false, 1, [1], 0⟩, true⟩

/-- Closed witness for C7: deadlines are `100` and `100.5`; the first
iteration sleeps exactly `0.25`. -/
theorem C7_replay_timing_witness :
    ((replayRun rowsW7 100 nowsW7 (fun _ => false) none).1.map SendEvent.target =
      rowsW7.map (fun r => 100 + (r.ts - (0 : ℚ)))) ∧
    evW7.nowAt = nowsW7 0 ∧
    evW7.slept = (if 0 < evW7.target - nowsW7 0 then some (evW7.target - nowsW7 0) else none) := by
  have h := C7_replay_timing rowsW7 100 nowsW7 (fun _ => false) none
    ⟨0, 272, false, 1, [1]⟩ [⟨1/2, 272, false, 1, [2]⟩] rfl (by with_unfolding_all decide)
  refine ⟨h.1, h.2.1 0 evW7 ?_⟩
  with_unfolding_all decide

/-! ### Claim C8: trace ingestion -/

/-- C8.  Reading a trace skips every CSV record that is empty (a blank
line) or whose first field begins with `#`, and whenever the input
contains a non-skipped record that fails to parse the whole read yields
`none` (the uncaught exception aborts it before anything is returned, so
no partial Trace ever reaches the replay loop). -/
theorem C8_read_fail_fast (lines : List (List String)) :
    (∀ r, skipRow r = true → read_replay_csv (r :: lines) = read_replay_csv lines) ∧
    ((∃ r ∈ lines, skipRow r = false ∧ parse_csv_row r = none) →
      read_replay_csv lines = none) := by
  constructor
  · intro r hr
    show (if skipRow r then read_replay_csv lines else _) = read_replay_csv lines
    rw [if_pos hr]
  · induction lines with
    | nil =>
      rintro ⟨r, hmem, _⟩
      simp at hmem
    | cons l rest ih =>
      rintro ⟨r, hmem, hskip, hparse⟩
      rcases List.mem_cons.mp hmem with rfl | hmem2
      · show (if skipRow r then _ else _) = none
        rw [if_neg (by rw [hskip]; simp)]
        show ((parse_csv_row r).bind fun row => (read_replay_csv rest).bind
          fun rows => some (row :: rows)) = none
        rw [hparse]
        rfl
      · have hrest : read_replay_csv rest = none := ih ⟨r, hmem2, hskip, hparse⟩
        show (if skipRow l then read_replay_csv rest else _) = none
        by_cases hl : skipRow l
        · rw [if_pos hl, hrest]
        · rw [if_neg hl]
          show ((parse_csv_row l).bind fun row => (read_replay_csv rest).bind
            fun rows => some (row :: rows)) = none
          rw [hrest]
          cases parse_csv_row l <;> rfl

/-- Closed witness for C8: a comment row is skipped, and one malformed
row (after a comment, a blank line and a good row) makes the whole read
fail. -/
theorem C8_read_fail_fast_witness :
    read_replay_csv [["#h"], [], ["1.0", "110", "0", "2", "0102"], ["bad"]] = none ∧
    read_replay_csv ([["# comment"], ["1.0", "110", "0", "2", "0102"]]) =
      read_replay_csv [["1.0", "110", "0", "2", "0102"]] :=
  ⟨(C8_read_fail_fast [["#h"], [], ["1.0", "110", "0", "2", "0102"], ["bad"]]).2
      ⟨["bad"], by decide, by decide, by decide⟩,
    (C8_read_fail_fast [["1.0", "110", "0", "2", "0102"]]).1 ["# comment"] (by decide)⟩

/-! ### Claims C5, C10: generator mode -/

/-- C5 is false as stated: a generator spec whose id field is not hex
makes `generator_mode` raise an uncaught `ValueError` (`main` catches
only `KeyboardInterrupt`), aborting the run — nothing is skipped. -/
theorem C5_counterexample : generator_parse "id:zz:freq:10" = none := by decide

/-- C5 (amended).  The generator-spec parser skips only *unrecognized
label tokens* (anything neither starting with `d` nor equal to `freq`);
a malformed value is fatal, not skipped: an unparsable id aborts the
parse, and so does an unparsable hex byte after a `dN` label or an
unparsable float after `freq` (the exception propagates and kills the
run). -/
theorem C5_amended :
    (∀ (p : List Char) (rest : List (List Char)) (acc : List Nat) (freq : ℚ),
      p.take 1 ≠ ['d'] → p ≠ "freq".toList →
      genLoop (p :: rest) acc freq = genLoop rest acc freq) ∧
    (∀ (spec : String) (idcs : List Char),
      (splitListOn ':' spec.toList)[1]? = some idcs → pyIntHexL? idcs = none →
      generator_parse spec = none) ∧
    (∀ (p v : List Char) (rest : List (List Char)) (acc : List Nat) (freq : ℚ),
      p.take 1 = ['d'] → pyIntHexL? v = none →
      genLoop (p :: v :: rest) acc freq = none) ∧
    (∀ (v : List Char) (rest : List (List Char)) (acc : List Nat) (freq : ℚ),
      pyFloatL? v = none →
      genLoop ("freq".toList :: v :: rest) acc freq = none) := by
  refine ⟨?_, ?_, ?_, ?_⟩
  · intro p rest acc freq hd hf
    rw [genLoop.eq_def]
    dsimp only
    rw [if_neg hd, if_neg hf]
  · intro spec idcs h1 h2
    unfold generator_parse
    rw [h1]
    dsimp only
    rw [h2]
  · intro p v rest acc freq hd hv
    rw [genLoop.eq_def]
    dsimp only
    rw [if_pos hd]
    rw [hv]
  · intro v rest acc freq hv
    rw [genLoop.eq_def]
    dsimp only
    rw [if_neg (by decide), if_pos rfl]
    rw [hv]

/-- Closed witness for the amended C5: an unknown token is skipped, but
a bad id, a bad data byte and a bad frequency each abort the parse. -/
theorem C5_amended_witness :
    genLoop ["bogus".toList, "freq".toList, "10".toList] [] 1 =
      genLoop ["freq".toList, "10".toList] [] 1 ∧
    generator_parse "id:zz:d1:00" = none ∧
    genLoop ["d1".toList, "xx".toList] [] 1 = none ∧
    genLoop ["freq".toList, "abc".toList] [] 1 = none :=
  ⟨(C5_amended.1) "bogus".toList ["freq".toList, "10".toList] [] 1 (by decide) (by decide),
    (C5_amended.2.1) "id:zz:d1:00" "zz".toList (by decide) (by decide),
    (C5_amended.2.2.1) "d1".toList "xx".toList [] [] 1 (by decide) (by decide),
    (C5_amended.2.2.2) "abc".toList [] [] 1 (by decide)⟩

/-- C10.  Every frame built by generator mode carries
`is_extended_id = False`, regardless of the id parsed from the spec —
even ids wider than 11 bits are emitted as standard frames. -/
theorem C10_gen_standard_frame (spec : String) (g : GenSpec)
    (_h : generator_parse spec = some g) :
    (genMessage g).is_extended_id = false := rfl

/-- Closed witness for C10 with a 29-bit id (`0x1FFFFFFF`). -/
theorem C10_gen_standard_frame_witness :
    generator_parse "id:1FFFFFFF:freq:10" = some ⟨536870911, [], 10⟩ ∧
    (genMessage ⟨536870911, [], 10⟩).is_extended_id = false :=
  ⟨by decide,
    C10_gen_standard_frame "id:1FFFFFFF:freq:10" ⟨536870911, [], 10⟩ (by decide)⟩
